import Mathlib

/-!
# Verification of the AI-Subtitles acquisition-and-transcription pipeline

Shallow embedding of the TypeScript sources of the AI-Subtitles repository:

* `src/main.ts` — URL validation (`isValidYouTubeUrl`), temporary file
  management (`makeTempFile`, `cleanupFile`), audio acquisition
  (`YouTubeDownloader.getAudio`) and the Azure Speech continuous-recognition
  transcriber (`recognizer.recognized` handler).
* `src/unnamed/part_001` — the tagged error classes (`InvalidUrlError`,
  `YoutubeDownloadError`, `TranscriptionError`).
* `src/unnamed/part_002` — the `recognizeOnceAsync` variant of the Azure
  transcriber and the AssemblyAI submit-and-poll transcriber
  (`Transcription.transcribe`).

JavaScript numbers are modelled as `ℚ`; the JS value `NaN` is modelled by
`none` in an `Option ℚ` where it can arise (confidence scores).  Strings are
Lean `String`s.  Promise resolution/rejection is modelled by `Except`.
-/

/-- The tagged error classes of `src/unnamed/part_001` (`Data.TaggedError`).
The repository defines exactly these three error classes; the payload is
modelled as the message string of the carried JS error value. -/
inductive AppError where
  | invalidUrlError (url : String)
  | youtubeDownloadError (error : String)
  | transcriptionError (error : String)
deriving DecidableEq, Repr

/-- The `_tag` discriminator that `Data.TaggedError` attaches to each error
class in `src/unnamed/part_001`. -/
def AppError.tag : AppError → String
  | .invalidUrlError _ => "InvalidUrlError"
  | .youtubeDownloadError _ => "YoutubeDownloadError"
  | .transcriptionError _ => "TranscriptionError"

/-! ## URL validation (`src/main.ts` lines 288–295)

The validator is the JavaScript regular expression

`/^https?:\/\/(www\.)?(youtube\.com\/watch\?v=|youtu\.be\/)[a-zA-Z0-9_-]{11}.*$/`

tested with `.test(url)`.  The regex is anchored (`^`, `$`, no `m` flag), so
`.test` succeeds exactly when the whole string matches; JS `.` matches any
character except the line terminators `\n`, `\r`, U+2028 and U+2029.
The translation below follows the regex left to right. -/

/-- The character class `[a-zA-Z0-9_-]` of the validation regex. -/
def idChar (c : Char) : Bool :=
  ('a' ≤ c && c ≤ 'z') || ('A' ≤ c && c ≤ 'Z') || ('0' ≤ c && c ≤ '9')
    || c == '_' || c == '-'

/-- JS regex line terminators, which `.` does not match. -/
def lineTerm (c : Char) : Bool :=
  c == '\n' || c == '\r' || c == '\u2028' || c == '\u2029'

/-- Strip the literal prefix `p` from `l`, returning the remainder. -/
def dropPrefixCh : List Char → List Char → Option (List Char)
  | [], l => some l
  | _ :: _, [] => none
  | p :: ps, c :: cs => if p = c then dropPrefixCh ps cs else none

/-- Consume exactly `n` characters satisfying `idChar`
(the `[a-zA-Z0-9_-]{11}` part of the regex), returning the remainder. -/
def takeIdCount : Nat → List Char → Option (List Char)
  | 0, l => some l
  | _ + 1, [] => none
  | n + 1, c :: cs => if idChar c then takeIdCount n cs else none

/-- The `[a-zA-Z0-9_-]{11}.*$` part of the regex. -/
def matchTail (l : List Char) : Bool :=
  match takeIdCount 11 l with
  | some r => r.all (fun c => !lineTerm c)
  | none => false

/-- The `(youtube\.com\/watch\?v=|youtu\.be\/)[a-zA-Z0-9_-]{11}.*$` part. -/
def matchHostTail (l : List Char) : Bool :=
  (match dropPrefixCh "youtube.com/watch?v=".data l with
   | some r => matchTail r
   | none => false)
  || (match dropPrefixCh "youtu.be/".data l with
      | some r => matchTail r
      | none => false)

/-- The `(www\.)?(…)` part. -/
def matchWwwTail (l : List Char) : Bool :=
  (match dropPrefixCh "www.".data l with
   | some r => matchHostTail r
   | none => false)
  || matchHostTail l

/-- `isValidYouTubeUrl` of `src/main.ts` lines 288–291: the anchored regex
test.  `https?:\/\/` is unfolded into the two literal prefixes `https://`
and `http://`. -/
def isValidYouTubeUrl (s : String) : Bool :=
  (match dropPrefixCh "https://".data s.data with
   | some r => matchWwwTail r
   | none => false)
  || (match dropPrefixCh "http://".data s.data with
      | some r => matchWwwTail r
      | none => false)

/-- `validateUrl` of `src/main.ts` lines 293–295: a matching URL is passed
through unchanged, a non-matching one fails with `InvalidUrlError{url}`. -/
def validateUrl (url : String) : Except AppError String :=
  if isValidYouTubeUrl url then .ok url else .error (.invalidUrlError url)

/-- The input-validation grammar as the specification states it (§6):
`^https?://(www\.)?(youtube.com/watch?v=|youtu.be/)[A-Za-z0-9_-]{11}.*$`,
read with JS regex semantics (`.` excludes line terminators, anchored match).
This definition follows the spec's words, to be compared with
`isValidYouTubeUrl`, which follows the source. -/
def specUrlGrammar (s : String) : Prop :=
  ∃ (proto www host : String) (idPart rest : List Char),
    (proto = "http://" ∨ proto = "https://") ∧
    (www = "www." ∨ www = "") ∧
    (host = "youtube.com/watch?v=" ∨ host = "youtu.be/") ∧
    idPart.length = 11 ∧ (∀ c ∈ idPart, idChar c = true) ∧
    (∀ c ∈ rest, lineTerm c = false) ∧
    s.data = proto.data ++ www.data ++ host.data ++ idPart ++ rest

example : isValidYouTubeUrl "https://www.youtube.com/watch?v=dQw4w9WgXcQ" = true := by decide
example : isValidYouTubeUrl "https://youtu.be/dQw4w9WgXcQ" = true := by decide
example : isValidYouTubeUrl "http://youtube.com/watch?v=dQw4w9WgXcQ&t=30s" = true := by decide
example : isValidYouTubeUrl "" = false := by decide
example : isValidYouTubeUrl "https://vimeo.com/123456" = false := by decide
example : isValidYouTubeUrl "https://youtu.be/short" = false := by decide

/-! ### Characterisation of the URL matcher -/

theorem dropPrefixCh_eq_some (p : List Char) :
    ∀ (l r : List Char), dropPrefixCh p l = some r ↔ l = p ++ r := by
  induction p with
  | nil => intro l r; simp [dropPrefixCh]
  | cons p ps ih =>
    intro l r
    cases l with
    | nil => simp [dropPrefixCh]
    | cons c cs =>
      simp only [dropPrefixCh, List.cons_append, List.cons.injEq]
      by_cases h : p = c
      · subst h; simp [ih]
      · rw [if_neg h]
        exact iff_of_false (by simp) (fun hc => h hc.1.symm)

theorem dropPrefixCh_append (p r : List Char) : dropPrefixCh p (p ++ r) = some r :=
  (dropPrefixCh_eq_some p (p ++ r) r).mpr rfl

theorem takeIdCount_eq_some :
    ∀ (n : Nat) (l r : List Char),
      takeIdCount n l = some r ↔
        ∃ pre : List Char,
          pre.length = n ∧ (∀ c ∈ pre, idChar c = true) ∧ l = pre ++ r := by
  intro n
  induction n with
  | zero =>
    intro l r
    simp [takeIdCount, List.length_eq_zero]
  | succ n ih =>
    intro l r
    cases l with
    | nil =>
      refine iff_of_false (by simp [takeIdCount]) ?_
      rintro ⟨pre, hlen, -, hl⟩
      obtain ⟨rfl, -⟩ := List.append_eq_nil.mp hl.symm
      simp at hlen
    | cons c cs =>
      simp only [takeIdCount]
      by_cases hc : idChar c
      · rw [if_pos hc, ih]
        constructor
        · rintro ⟨pre, hlen, hall, rfl⟩
          refine ⟨c :: pre, by simp [hlen], ?_, by simp⟩
          intro x hx
          rcases List.mem_cons.mp hx with rfl | hx
          · exact hc
          · exact hall x hx
        · rintro ⟨pre, hlen, hall, hl⟩
          cases pre with
          | nil => simp at hlen
          | cons p ps =>
            obtain ⟨rfl, hcs⟩ : p = c ∧ cs = ps ++ r := by
              have := hl
              simp only [List.cons_append, List.cons.injEq] at this
              exact ⟨this.1.symm, this.2⟩
            exact ⟨ps, by simpa using hlen,
              fun x hx => hall x (List.mem_cons_of_mem _ hx), hcs⟩
      · rw [if_neg hc]
        refine iff_of_false (by simp) ?_
        rintro ⟨pre, hlen, hall, hl⟩
        cases pre with
        | nil => simp at hlen
        | cons p ps =>
          obtain rfl : c = p := by
            simpa using congrArg (fun l => l.head?) hl
          exact hc (hall c (List.mem_cons_self c ps))

/-- What the `[a-zA-Z0-9_-]{11}.*$` tail accepts. -/
def tailSpec (l : List Char) : Prop :=
  ∃ idPart rest : List Char,
    idPart.length = 11 ∧ (∀ c ∈ idPart, idChar c = true) ∧
    (∀ c ∈ rest, lineTerm c = false) ∧ l = idPart ++ rest

theorem matchTail_iff (l : List Char) : matchTail l = true ↔ tailSpec l := by
  unfold matchTail tailSpec
  cases h : takeIdCount 11 l with
  | none =>
    refine iff_of_false (by simp) ?_
    rintro ⟨idPart, rest, h11, hid, -, rfl⟩
    have : takeIdCount 11 (idPart ++ rest) = some rest :=
      (takeIdCount_eq_some 11 _ rest).mpr ⟨idPart, h11, hid, rfl⟩
    rw [h] at this
    cases this
  | some r =>
    obtain ⟨pre, hlen, hall, rfl⟩ := (takeIdCount_eq_some 11 _ r).mp h
    simp only [List.all_eq_true, Bool.not_eq_true']
    constructor
    · intro hrest
      exact ⟨pre, r, hlen, hall, hrest, rfl⟩
    · rintro ⟨idPart, rest, h11, hid, hrest, heq⟩
      have : takeIdCount 11 (pre ++ r) = some rest :=
        (takeIdCount_eq_some 11 _ rest).mpr ⟨idPart, h11, hid, heq⟩
      rw [h] at this
      obtain rfl : r = rest := by injection this
      exact hrest

theorem matchHostTail_iff (l : List Char) :
    matchHostTail l = true ↔
      ∃ (host : String) (r : List Char),
        (host = "youtube.com/watch?v=" ∨ host = "youtu.be/") ∧
        matchTail r = true ∧ l = host.data ++ r := by
  unfold matchHostTail
  rw [Bool.or_eq_true]
  constructor
  · intro h
    rcases h with h | h
    · cases hd : dropPrefixCh "youtube.com/watch?v=".data l with
      | none => rw [hd] at h; cases h
      | some r =>
        rw [hd] at h
        exact ⟨_, r, Or.inl rfl, h, (dropPrefixCh_eq_some _ l r).mp hd⟩
    · cases hd : dropPrefixCh "youtu.be/".data l with
      | none => rw [hd] at h; cases h
      | some r =>
        rw [hd] at h
        exact ⟨_, r, Or.inr rfl, h, (dropPrefixCh_eq_some _ l r).mp hd⟩
  · rintro ⟨host, r, hhost | hhost, hm, rfl⟩ <;> subst hhost
    · exact Or.inl (by rw [dropPrefixCh_append]; exact hm)
    · exact Or.inr (by rw [dropPrefixCh_append]; exact hm)

theorem matchWwwTail_iff (l : List Char) :
    matchWwwTail l = true ↔
      ∃ (www : String) (r : List Char),
        (www = "www." ∨ www = "") ∧ matchHostTail r = true ∧ l = www.data ++ r := by
  unfold matchWwwTail
  rw [Bool.or_eq_true]
  constructor
  · intro h
    rcases h with h | h
    · cases hd : dropPrefixCh "www.".data l with
      | none => rw [hd] at h; cases h
      | some r =>
        rw [hd] at h
        exact ⟨_, r, Or.inl rfl, h, (dropPrefixCh_eq_some _ l r).mp hd⟩
    · exact ⟨"", l, Or.inr rfl, h, rfl⟩
  · rintro ⟨www, r, hwww | hwww, hm, rfl⟩ <;> subst hwww
    · exact Or.inl (by rw [dropPrefixCh_append]; exact hm)
    · exact Or.inr hm

theorem isValidYouTubeUrl_iff_grammar (s : String) :
    isValidYouTubeUrl s = true ↔ specUrlGrammar s := by
  unfold isValidYouTubeUrl
  rw [Bool.or_eq_true]
  constructor
  · intro h
    have hproto :
        ∃ (proto : String) (r : List Char),
          (proto = "http://" ∨ proto = "https://") ∧
          matchWwwTail r = true ∧ s.data = proto.data ++ r := by
      rcases h with h | h
      · cases hd : dropPrefixCh "https://".data s.data with
        | none => rw [hd] at h; cases h
        | some r =>
          rw [hd] at h
          exact ⟨_, r, Or.inr rfl, h, (dropPrefixCh_eq_some _ _ r).mp hd⟩
      · cases hd : dropPrefixCh "http://".data s.data with
        | none => rw [hd] at h; cases h
        | some r =>
          rw [hd] at h
          exact ⟨_, r, Or.inl rfl, h, (dropPrefixCh_eq_some _ _ r).mp hd⟩
    obtain ⟨proto, r1, hp, hw, hs⟩ := hproto
    obtain ⟨www, r2, hwww, hh, rfl⟩ := (matchWwwTail_iff r1).mp hw
    obtain ⟨host, r3, hhost, ht, rfl⟩ := (matchHostTail_iff r2).mp hh
    obtain ⟨idPart, rest, h11, hid, hrest, rfl⟩ := (matchTail_iff r3).mp ht
    exact ⟨proto, www, host, idPart, rest, hp, hwww, hhost, h11, hid, hrest,
      by rw [hs]; simp [List.append_assoc]⟩
  · rintro ⟨proto, www, host, idPart, rest, hp, hwww, hhost, h11, hid, hrest, hs⟩
    have ht : matchTail (idPart ++ rest) = true :=
      (matchTail_iff _).mpr ⟨idPart, rest, h11, hid, hrest, rfl⟩
    have hh : matchHostTail (host.data ++ (idPart ++ rest)) = true :=
      (matchHostTail_iff _).mpr ⟨host, _, hhost, ht, rfl⟩
    have hw : matchWwwTail (www.data ++ (host.data ++ (idPart ++ rest))) = true :=
      (matchWwwTail_iff _).mpr ⟨www, _, hwww, hh, rfl⟩
    rcases hp with hp | hp <;> subst hp
    · refine Or.inr ?_
      have : s.data = "http://".data ++ (www.data ++ (host.data ++ (idPart ++ rest))) := by
        rw [hs]; simp [List.append_assoc]
      rw [this, dropPrefixCh_append]
      exact hw
    · refine Or.inl ?_
      have : s.data = "https://".data ++ (www.data ++ (host.data ++ (idPart ++ rest))) := by
        rw [hs]; simp [List.append_assoc]
      rw [this, dropPrefixCh_append]
      exact hw

/-- C1 (amended): the `src/main.ts` pipeline's URL validation succeeds
(yielding the string itself) exactly on strings matching the spec's grammar
`^https?://(www\.)?(youtube.com/watch?v=|youtu.be/)[A-Za-z0-9_-]{11}.*$`,
and every call either succeeds that way or fails with `InvalidUrlError`
carrying the offending string — validation is pure, so it happens before
any acquisition effect.  (The AssemblyAI variant's validator implements a
different grammar; see `aaiValidator_diverges_from_grammar`.) -/
theorem url_validation_iff_grammar (s : String) :
    (validateUrl s = Except.ok s ↔ specUrlGrammar s) ∧
    (validateUrl s = Except.ok s ∨
      validateUrl s = Except.error (AppError.invalidUrlError s)) := by
  have hok : validateUrl s = Except.ok s ↔ isValidYouTubeUrl s = true := by
    unfold validateUrl
    by_cases h : isValidYouTubeUrl s <;> simp [h]
  refine ⟨hok.trans (isValidYouTubeUrl_iff_grammar s), ?_⟩
  unfold validateUrl
  by_cases h : isValidYouTubeUrl s <;> simp [h]

/-! ## Temporary files (`src/main.ts` lines 41–57)

`makeTempFile` resolves `FS.realpath(OS.tmpdir())` and joins it with
`` `fluent-ai-subtitles-${Date.now()}.${extension}` ``; a rejection of the
`realpath` promise is caught and wrapped as `YoutubeDownloadError`.
The resolved real temp directory is modelled as `Option String`
(`none` = the promise rejected), `Date.now()` as the `now : Nat` argument. -/

/-- The path built by `makeTempFile` (`Path.join` plus the template literal
`` `fluent-ai-subtitles-${Date.now()}.${extension}` ``). -/
def makeTempFileName (tmpDir : String) (now : Nat) (extension : String) : String :=
  tmpDir ++ "/" ++ ("fluent-ai-subtitles-" ++ Nat.repr now ++ "." ++ extension)

/-- `makeTempFile` of `src/main.ts` lines 41–45. -/
def makeTempFile (tmpDir : Option String) (now : Nat) (extension : String) :
    Except AppError String :=
  match tmpDir with
  | some d => .ok (makeTempFileName d now extension)
  | none => .error (.youtubeDownloadError "realpath failed")

/-- Outcome of the `FS.unlink(path)` promise inside `cleanupFile`. -/
inductive UnlinkOutcome where
  | ok
  | enoent
  | eacces
  | other (msg : String)
deriving DecidableEq, Repr

/-- The inner `Effect.tryPromise` of `cleanupFile` (`src/main.ts` lines
52–56): a rejected `unlink` is caught and turned into the failure value
`undefined` (modelled as `Unit`). -/
def cleanupFileTry : UnlinkOutcome → Except Unit Unit
  | .ok => .ok ()
  | _ => .error ()

/-- `cleanupFile`: the `tryPromise` above piped through
`Effect.catchAll(() => Effect.succeed(undefined))`. -/
def cleanupFile (unlink : UnlinkOutcome) : Except AppError Unit :=
  match cleanupFileTry unlink with
  | .ok _ => .ok ()
  | .error _ => .ok ()

/-- Events the `yt-dlp` child process can deliver in
`YouTubeDownloader.getAudio` (`src/main.ts` lines 96–124): a `close` event
with an exit code (possibly `null`), an `error` event, or the abort signal. -/
inductive ProcOutcome where
  | close (code : Option Int)
  | procError (msg : String)
  | aborted
deriving DecidableEq, Repr

/-- JS template-literal rendering of the `number | null` exit code. -/
def jsShowCode : Option Int → String
  | some c => toString c
  | none => "null"

/-- The argument list handed to `ytDlpWrap.exec` (`src/main.ts` lines 85–92). -/
def ytDlpArgs (url file : String) : List String :=
  [url, "-x", "--audio-format", "wav", "-o", file]

/-- Resolution of the promise wrapping the `yt-dlp` process:
`close` with code 0 resolves; any other close code rejects with
`YoutubeDownloadError` carrying `` `yt-dlp exited with code ${code}` ``;
an `error` event rejects with the raw error, wrapped by the `tryPromise`
catch into `YoutubeDownloadError`; an abort rejects with
`YoutubeDownloadError("aborted")`. -/
def ytDlpResult : ProcOutcome → Except AppError Unit
  | .close code =>
    if code = some 0 then .ok ()
    else .error (.youtubeDownloadError ("yt-dlp exited with code " ++ jsShowCode code))
  | .procError msg => .error (.youtubeDownloadError msg)
  | .aborted => .error (.youtubeDownloadError "aborted")

/-- `YouTubeDownloader.getAudio` (`src/main.ts` lines 75–124):
`Effect.acquireRelease(makeTempFile("wav"), cleanupFile)` followed by the
`yt-dlp` invocation, mapped back to the reserved file path.  The release
step always succeeds (see `cleanupFile`) and does not change the outcome. -/
def getAudio (tmpDir : Option String) (now : Nat) (url : String)
    (proc : ProcOutcome) : Except AppError String :=
  match makeTempFile tmpDir now "wav" with
  | .error e => .error e
  | .ok file =>
    match ytDlpResult proc with
    | .ok _ => .ok file
    | .error e => .error e

/-! ### Decimal decoding: `Nat.repr` is injective -/

/-- Numeric value of a decimal digit character. -/
def decDigitVal (c : Char) : Nat := c.toNat - 48

/-- Read a decimal digit string back into a number. -/
def decodeDecimal (l : List Char) : Nat :=
  l.foldl (fun a c => 10 * a + decDigitVal c) 0

theorem decDigitVal_digitChar : ∀ r : Nat, r < 10 → decDigitVal (Nat.digitChar r) = r := by
  decide

theorem toDigitsCore_append (b : Nat) :
    ∀ (f n : Nat) (ds : List Char),
      Nat.toDigitsCore b f n ds = Nat.toDigitsCore b f n [] ++ ds := by
  intro f
  induction f with
  | zero => intro n ds; simp [Nat.toDigitsCore]
  | succ f ih =>
    intro n ds
    simp only [Nat.toDigitsCore]
    by_cases h : n / b = 0
    · simp [h]
    · rw [if_neg h, if_neg h, ih (n / b) (Nat.digitChar (n % b) :: ds),
        ih (n / b) [Nat.digitChar (n % b)], List.append_assoc]
      rfl

theorem decodeDecimal_append_singleton (l : List Char) (c : Char) :
    decodeDecimal (l ++ [c]) = 10 * decodeDecimal l + decDigitVal c := by
  simp [decodeDecimal, List.foldl_append]

theorem decode_toDigitsCore :
    ∀ (f n : Nat), n < f → decodeDecimal (Nat.toDigitsCore 10 f n []) = n := by
  intro f
  induction f with
  | zero => intro n h; omega
  | succ f ih =>
    intro n hn
    simp only [Nat.toDigitsCore]
    by_cases h : n / 10 = 0
    · rw [if_pos h]
      have hval : decodeDecimal [Nat.digitChar (n % 10)] =
          decDigitVal (Nat.digitChar (n % 10)) := by
        simp [decodeDecimal]
      rw [hval, decDigitVal_digitChar _ (Nat.mod_lt _ (by omega))]
      omega
    · rw [if_neg h, toDigitsCore_append,
        decodeDecimal_append_singleton, ih (n / 10) (by omega),
        decDigitVal_digitChar _ (Nat.mod_lt _ (by omega))]
      omega

theorem natRepr_injective {m n : Nat}
    (h : (Nat.repr m).data = (Nat.repr n).data) : m = n := by
  have hl : Nat.toDigits 10 m = Nat.toDigits 10 n := by
    simpa [Nat.repr, List.asString] using h
  have hm : decodeDecimal (Nat.toDigits 10 m) = m :=
    decode_toDigitsCore (m + 1) m (Nat.lt_succ_self m)
  have hn : decodeDecimal (Nat.toDigits 10 n) = n :=
    decode_toDigitsCore (n + 1) n (Nat.lt_succ_self n)
  rw [hl] at hm
  omega

theorem makeTempFileName_inj (d e : String) {t₁ t₂ : Nat}
    (h : makeTempFileName d t₁ e = makeTempFileName d t₂ e) : t₁ = t₂ := by
  apply natRepr_injective
  have hdata := congrArg String.data h
  simpa [makeTempFileName, String.data_append, List.append_assoc] using hdata

/-- C2 counterexample: two `makeTempFile` calls that observe the same
`Date.now()` millisecond return the same path, so the paths of two calls
are not always distinct. -/
theorem makeTempFile_same_millisecond_collides :
    ¬ (∀ t₁ t₂ : Nat,
        makeTempFileName "/tmp" t₁ "wav" ≠ makeTempFileName "/tmp" t₂ "wav") :=
  fun h => h 1700000000000 1700000000000 rfl

/-- C2 (amended): the generated name contains only the current time — there
is no monotonically distinguishing component — so two calls yield distinct
paths exactly when they observe distinct `Date.now()` values; two calls
within the same millisecond return the same path. -/
theorem makeTempFileName_distinct_iff_time_distinct (d e : String) (t₁ t₂ : Nat) :
    (t₁ ≠ t₂ → makeTempFileName d t₁ e ≠ makeTempFileName d t₂ e) ∧
    (t₁ = t₂ → makeTempFileName d t₁ e = makeTempFileName d t₂ e) :=
  ⟨fun hne heq => hne (makeTempFileName_inj d e heq),
   fun ht => by rw [ht]⟩

/-- C2 witness: distinct milliseconds give distinct paths at a concrete input. -/
theorem makeTempFileName_distinct_witness :
    makeTempFileName "/tmp" 1700000000000 "wav" ≠
      makeTempFileName "/tmp" 1700000000001 "wav" :=
  (makeTempFileName_distinct_iff_time_distinct "/tmp" "wav"
    1700000000000 1700000000001).1 (by decide)

/-- C3 counterexample: when resolving the temp directory fails,
`makeTempFile` fails with the tag `YoutubeDownloadError`, which is not the
tag `ResourceError` the claim names (no `ResourceError` exists in the
repository's error module). -/
theorem makeTempFile_fail_tag_not_resourceError :
    (∃ e, makeTempFile none 0 "wav" = Except.error e ∧
      AppError.tag e = "YoutubeDownloadError") ∧
    "YoutubeDownloadError" ≠ "ResourceError" :=
  ⟨⟨.youtubeDownloadError "realpath failed", rfl, rfl⟩, by decide⟩

/-- C3 (amended): if resolving the system temp directory fails,
`makeTempFile` fails with `YoutubeDownloadError` — the single error class
the repository uses for acquisition failures — and with no other tag. -/
theorem makeTempFile_fail_is_youtubeDownloadError (now : Nat) (ext : String) :
    makeTempFile none now ext =
      Except.error (AppError.youtubeDownloadError "realpath failed") ∧
    AppError.tag (AppError.youtubeDownloadError "realpath failed") =
      "YoutubeDownloadError" :=
  ⟨rfl, rfl⟩

/-- C7: with the temp directory resolved, a `close` event with exit code 0
makes `getAudio` resolve with the reserved temp path, and a `close` event
with any non-zero exit code `c` makes it fail with a download error whose
message carries `c`. -/
theorem getAudio_exit_code (d : String) (now : Nat) (url : String) (c : Int) :
    getAudio (some d) now url (.close (some 0)) =
      Except.ok (makeTempFileName d now "wav") ∧
    (c ≠ 0 →
      getAudio (some d) now url (.close (some c)) =
        Except.error (.youtubeDownloadError
          ("yt-dlp exited with code " ++ toString c))) := by
  constructor
  · rfl
  · intro hc
    have : ((some c : Option Int) = some 0) = False := by simp [hc]
    simp [getAudio, makeTempFile, ytDlpResult, jsShowCode, this]

/-- C7 witness at exit codes 0 and 3. -/
theorem getAudio_exit_code_witness :
    getAudio (some "/tmp") 7 "u" (.close (some 0)) =
      Except.ok (makeTempFileName "/tmp" 7 "wav") ∧
    getAudio (some "/tmp") 7 "u" (.close (some 3)) =
      Except.error (.youtubeDownloadError
        ("yt-dlp exited with code " ++ toString (3 : Int))) :=
  ⟨(getAudio_exit_code "/tmp" 7 "u" 3).1,
   (getAudio_exit_code "/tmp" 7 "u" 3).2 (by decide)⟩

/-- C9: `cleanupFile` completes successfully for every unlink outcome —
a missing file (`enoent`, i.e. never created or already deleted by an
earlier release) and any other deletion failure are all swallowed, so
release never raises and releasing twice succeeds both times. -/
theorem cleanupFile_never_fails :
    (∀ u : UnlinkOutcome, cleanupFile u = Except.ok ()) ∧
    cleanupFile .enoent = Except.ok () ∧
    cleanupFile .eacces = Except.ok () := by
  refine ⟨?_, rfl, rfl⟩
  intro u
  cases u <;> rfl

/-! ## The token data model (`src/model.ts`)

JS numbers are modelled as `ℚ`; the `score` field may be the JS value
`NaN` (when `Number(confidence)` is applied to a non-numeric string), which
is modelled as `none`. -/

/-- `SubtitleToken` of `src/model.ts`. -/
structure SubtitleToken where
  id : Nat
  value : String
  startTimeMs : ℚ
  endTimeMs : ℚ
  score : Option ℚ
deriving DecidableEq, Repr

/-- The well-formedness invariant §3 of the spec states for tokens:
`endTimeMs >= startTimeMs` and `score` a number in `[0.0, 1.0]`. -/
def tokenInv (t : SubtitleToken) : Prop :=
  t.startTimeMs ≤ t.endTimeMs ∧ ∃ q, t.score = some q ∧ 0 ≤ q ∧ q ≤ 1

/-- The speech SDK's `ResultReason` values used by the sources. -/
inductive ResultReason where
  | recognizedSpeech
  | noMatch
  | canceled
deriving DecidableEq, Repr

/-- The SDK's numeric value of the enum, as rendered by the template
literal `` `Unexpected result reason: ${result.reason}` ``. -/
def ResultReason.jsNumber : ResultReason → Nat
  | .noMatch => 0
  | .canceled => 1
  | .recognizedSpeech => 3

/-! ## Strategy A, single-shot variant (`src/unnamed/part_002` lines 188–236)

`recognizeOnceAsync` delivers one result; its success callback builds a
single-token result with the fixed placeholder score `0.8` and resolves
`[subtitles]` — a one-element list whose element is the one-token list. -/

/-- The single result delivered by `recognizeOnceAsync`: `reason`, `text`
(possibly `undefined`), `offset` and `duration` in 100 ns ticks. -/
structure RecognizeOnceResult where
  reason : ResultReason
  text : Option String
  offset : ℚ
  duration : ℚ

/-- JS `x || ""` on a possibly-undefined string. -/
def jsOrEmpty : Option String → String
  | some s => s
  | none => ""

/-- The success/failure callbacks of `recognizeOnceAsync`
(`src/unnamed/part_002` lines 198–236): `RecognizedSpeech` resolves with
`[[token]]`, any other reason rejects (wrapped into `TranscriptionError`
by the surrounding `tryPromise`). -/
def recognizeOnceTranscribe (r : RecognizeOnceResult) :
    Except AppError (List (List SubtitleToken)) :=
  if r.reason = .recognizedSpeech then
    .ok [[{ id := 0, value := jsOrEmpty r.text,
            startTimeMs := r.offset / 10000,
            endTimeMs := (r.offset + r.duration) / 10000,
            score := some 0.8 }]]
  else
    .error (.transcriptionError
      ("Unexpected result reason: " ++ toString r.reason.jsNumber))

/-- C4: for every `recognizeOnceAsync` result whose reason is
`RecognizedSpeech`, `transcribe` resolves with exactly one result, which is
the flat sequence of exactly one token whose `id` is 0 and whose `score` is
the fixed placeholder `0.8`, not a backend-computed confidence (the result
carries no confidence at all). -/
theorem recognizeOnce_single_token (r : RecognizeOnceResult)
    (h : r.reason = .recognizedSpeech) :
    recognizeOnceTranscribe r =
      Except.ok [[{ id := 0, value := jsOrEmpty r.text,
                    startTimeMs := r.offset / 10000,
                    endTimeMs := (r.offset + r.duration) / 10000,
                    score := some 0.8 }]] := by
  simp [recognizeOnceTranscribe, h]

/-- C4 witness: a concrete recognized result ("hello", offset 0,
duration 50000 ticks). -/
theorem recognizeOnce_single_token_witness :
    recognizeOnceTranscribe ⟨.recognizedSpeech, some "hello", 0, 50000⟩ =
      Except.ok [[{ id := 0, value := "hello", startTimeMs := 0,
                    endTimeMs := 5, score := some 0.8 }]] := by
  have h := recognizeOnce_single_token ⟨.recognizedSpeech, some "hello", 0, 50000⟩ rfl
  rw [h]
  norm_num [jsOrEmpty]

/-! ## Strategy A, continuous recognition (`src/main.ts` lines 178–194)

The `recognizer.recognized` handler appends a token for every
`RecognizedSpeech` event.  Its confidence is the JS expression

`e.result.properties?.getProperty("Speech.Phrase.Confidence") || e.result.confidence || 0.5`

— the property channel delivers a *string* (or `undefined`), the
`confidence` field a number (or `undefined`) — followed by
`Number(confidence)`.  JS truthiness: a string is falsy exactly when empty,
a number exactly when zero (`NaN` set aside: an `Option ℚ` field cannot
carry it, which matches the SDK's number-or-undefined field). -/

/-- A recognized-segment event: reason, text, offset/duration in 100 ns
ticks, and the two optional confidence channels. -/
structure RecoEvent where
  reason : ResultReason
  text : String
  offset : ℚ
  duration : ℚ
  propConfidence : Option String
  resConfidence : Option ℚ

/-- The JS value held by `confidence` after the `||` chain: either the
property string or a number. -/
inductive JsConfidence where
  | str (s : String)
  | num (q : ℚ)
deriving DecidableEq, Repr

/-- `e.result.confidence || 0.5`. -/
def confidenceFallback : Option ℚ → JsConfidence
  | some q => if q = 0 then .num 0.5 else .num q
  | none => .num 0.5

/-- The full `||` chain. -/
def confidenceChain (propConf : Option String) (resConf : Option ℚ) : JsConfidence :=
  match propConf with
  | some s => if s = "" then confidenceFallback resConf else .str s
  | none => confidenceFallback resConf

/-- Model of the JS `Number()` conversion on the decimal numeral strings
the speech SDK delivers in its confidence property: optional sign, decimal
digits with an optional fractional part; `none` models `NaN`
(exponents, hex and whitespace forms do not arise and are not modelled). -/
def parseDecDigits (l : List Char) : Option ℚ :=
  let intPart := l.takeWhile Char.isDigit
  let rest := l.dropWhile Char.isDigit
  match rest with
  | [] => if intPart.isEmpty then none else some (decodeDecimal intPart : ℚ)
  | '.' :: frac =>
    if frac.all Char.isDigit && !(intPart.isEmpty && frac.isEmpty) then
      some ((decodeDecimal intPart : ℚ) + (decodeDecimal frac : ℚ) / 10 ^ frac.length)
    else none
  | _ => none

/-- JS `Number(s)` for a string `s` (`Number("") = 0`; unparseable → `NaN`). -/
def jsStringToNumber (s : String) : Option ℚ :=
  if s = "" then some 0
  else
    match s.data with
    | '-' :: rest => (parseDecDigits rest).map (fun q => -q)
    | '+' :: rest => parseDecDigits rest
    | l => parseDecDigits l

/-- `Number(confidence)`: identity on numbers, parsing on strings. -/
def jsNumberOfConfidence : JsConfidence → Option ℚ
  | .str s => jsStringToNumber s
  | .num q => some q

/-- The `score` stored by the handler. -/
def scoreOf (propConf : Option String) (resConf : Option ℚ) : Option ℚ :=
  jsNumberOfConfidence (confidenceChain propConf resConf)

/-- The `recognizer.recognized` handler (`src/main.ts` lines 178–194):
on a `RecognizedSpeech` event, append a token with `id` = running count,
tick offsets divided by 10000, and `score = Number(confidence)`;
on any other reason, leave the accumulated list unchanged. -/
def handleRecognized (results : List SubtitleToken) (e : RecoEvent) :
    List SubtitleToken :=
  if e.reason = .recognizedSpeech then
    results ++ [{ id := results.length, value := e.text,
                  startTimeMs := e.offset / 10000,
                  endTimeMs := (e.offset + e.duration) / 10000,
                  score := scoreOf e.propConfidence e.resConfidence }]
  else results

/-! ## Strategy B, AssemblyAI submit-and-poll
(`src/unnamed/part_002` lines 491–577) -/

/-- A word-level entry of the AssemblyAI status response;
`stop` models the JSON field `end` (a Lean keyword). -/
structure AaiWord where
  text : String
  start : ℚ
  stop : ℚ
  confidence : ℚ
deriving DecidableEq, Repr

/-- The token built from word `w` at position `i`
(`src/unnamed/part_002` lines 552–558). -/
def wordToken (i : Nat) (w : AaiWord) : SubtitleToken :=
  { id := i, value := w.text, startTimeMs := w.start,
    endTimeMs := w.stop, score := some w.confidence }

/-- `(statusData.words || []).map((w, i) => …)` with the running index made
explicit. -/
def mapWordsFrom (i : Nat) : List AaiWord → List SubtitleToken
  | [] => []
  | w :: ws => wordToken i w :: mapWordsFrom (i + 1) ws

/-- The completed-status word mapping: positions are 0-based. -/
def mapWords (ws : List AaiWord) : List SubtitleToken := mapWordsFrom 0 ws

/-- A status-endpoint response body
(`{status, text?, words?, error?}`). -/
structure StatusData where
  status : String
  text : Option String
  words : Option (List AaiWord)
  error : Option String

/-- `MAX_POLL_TIME` (`src/unnamed/part_002` line 529): 20 minutes in ms. -/
def maxPollTime : Nat := 20 * 60 * 1000

/-- `POLL_INTERVAL` (`src/unnamed/part_002` line 530): 3 seconds in ms. -/
def pollInterval : Nat := 3000

/-- The poll loop of `Transcription.transcribe`
(`src/unnamed/part_002` lines 533–567).  `ab k` is the abort signal as
observed at the top of iteration `k`; `resp k` the status response fetched
in iteration `k`; `elapsed` the accumulated polling time.  Each iteration:
abort check, `elapsed > MAX_POLL_TIME` check, fetch, branch on `status`;
a non-terminal status sleeps `POLL_INTERVAL` and retries with
`elapsed + POLL_INTERVAL`.  Thrown errors are wrapped into
`TranscriptionError` by the surrounding `tryPromise`. -/
def pollFrom (ab : Nat → Bool) (resp : Nat → StatusData) (k : Nat)
    (elapsed : Nat) : Except AppError (List SubtitleToken) :=
  if ab k then .error (.transcriptionError "Transcription aborted")
  else if htime : maxPollTime < elapsed then
    .error (.transcriptionError "Transcription timed out")
  else if (resp k).status = "completed" then
    .ok (mapWords ((resp k).words.getD []))
  else if (resp k).status = "error" then
    .error (.transcriptionError
      ("AssemblyAI transcription failed: " ++ ((resp k).error.getD "undefined")))
  else pollFrom ab resp (k + 1) (elapsed + pollInterval)
termination_by maxPollTime + pollInterval - elapsed
decreasing_by simp only [maxPollTime, pollInterval] at *; omega

theorem mapWordsFrom_length (ws : List AaiWord) :
    ∀ k, (mapWordsFrom k ws).length = ws.length := by
  induction ws with
  | nil => intro k; rfl
  | cons w ws ih => intro k; simp [mapWordsFrom, ih]

theorem mapWordsFrom_getElem? (ws : List AaiWord) :
    ∀ k i, (mapWordsFrom k ws)[i]? = (ws[i]?).map (fun w => wordToken (k + i) w) := by
  induction ws with
  | nil => intro k i; simp [mapWordsFrom]
  | cons w ws ih =>
    intro k i
    cases i with
    | zero => simp [mapWordsFrom]
    | succ i =>
      simp only [mapWordsFrom, List.getElem?_cons_succ, ih (k + 1) i]
      have : k + 1 + i = k + (i + 1) := by omega
      rw [this]

/-- C6: when the first status poll returns `completed` with word list `ws`,
`transcribe` returns exactly `ws.length` tokens in list order, token `i`
being `{id: i, value: wᵢ.text, startTimeMs: wᵢ.start, endTimeMs: wᵢ.end,
score: wᵢ.confidence}`; in particular the word
`{text:"hi", start:100, end:400, confidence:0.9}` yields exactly
`[{id:0, value:"hi", startTimeMs:100, endTimeMs:400, score:0.9}]`. -/
theorem strategyB_completed_mapping (ab : Nat → Bool) (resp : Nat → StatusData)
    (ws : List AaiWord) (hab : ab 0 = false)
    (hst : (resp 0).status = "completed") (hw : (resp 0).words = some ws) :
    pollFrom ab resp 0 0 = Except.ok (mapWords ws) ∧
    (mapWords ws).length = ws.length ∧
    (∀ i : Nat, (mapWords ws)[i]? =
      (ws[i]?).map (fun w =>
        { id := i, value := w.text, startTimeMs := w.start,
          endTimeMs := w.stop, score := some w.confidence })) ∧
    mapWords [⟨"hi", 100, 400, 0.9⟩] =
      [{ id := 0, value := "hi", startTimeMs := 100,
         endTimeMs := 400, score := some 0.9 }] := by
  refine ⟨?_, mapWordsFrom_length ws 0, ?_, rfl⟩
  · rw [pollFrom]
    simp [hab, hst, hw]
  · intro i
    have := mapWordsFrom_getElem? ws 0 i
    simpa [mapWords, wordToken] using this

/-- C6 witness: the concrete scripted backend of the claim. -/
theorem strategyB_completed_mapping_witness :
    pollFrom (fun _ => false)
      (fun _ => ⟨"completed", some "hi", some [⟨"hi", 100, 400, 0.9⟩], none⟩) 0 0 =
      Except.ok [{ id := 0, value := "hi", startTimeMs := 100,
                   endTimeMs := 400, score := some 0.9 }] := by
  have h := strategyB_completed_mapping (fun _ => false)
    (fun _ => ⟨"completed", some "hi", some [⟨"hi", 100, 400, 0.9⟩], none⟩)
    [⟨"hi", 100, 400, 0.9⟩] rfl rfl rfl
  rw [h.1, h.2.2.2]

theorem pollFrom_timeout_aux (ab : Nat → Bool) (resp : Nat → StatusData)
    (hab : ∀ k, ab k = false)
    (hnt : ∀ k, (resp k).status ≠ "completed" ∧ (resp k).status ≠ "error") :
    ∀ (fuel k elapsed : Nat), maxPollTime + pollInterval - elapsed ≤ fuel →
      pollFrom ab resp k elapsed =
        Except.error (.transcriptionError "Transcription timed out") := by
  intro fuel
  induction fuel with
  | zero =>
    intro k elapsed hf
    rw [pollFrom]
    have ht : maxPollTime < elapsed := by
      simp only [maxPollTime, pollInterval] at hf ⊢
      omega
    simp [hab k, ht]
  | succ fuel ih =>
    intro k elapsed hf
    rw [pollFrom]
    by_cases ht : maxPollTime < elapsed
    · simp [hab k, ht]
    · simp only [hab k, Bool.false_eq_true, if_false, ht, dite_false,
        (hnt k).1, if_neg, (hnt k).2]
      exact ih (k + 1) (elapsed + pollInterval)
        (by simp only [maxPollTime, pollInterval] at *; omega)

/-- C8: under any never-terminal response sequence (and no abort), every
non-terminal poll iteration with elapsed time within the ceiling sleeps the
3-second interval and retries with the interval added to the elapsed time,
and the loop as a whole terminates by failing with the timeout error once
the accumulated elapsed time exceeds the 20-minute ceiling. -/
theorem strategyB_poll_terminates (ab : Nat → Bool) (resp : Nat → StatusData)
    (hab : ∀ k, ab k = false)
    (hnt : ∀ k, (resp k).status ≠ "completed" ∧ (resp k).status ≠ "error") :
    (∀ k elapsed, elapsed ≤ maxPollTime →
      pollFrom ab resp k elapsed = pollFrom ab resp (k + 1) (elapsed + pollInterval)) ∧
    pollFrom ab resp 0 0 =
      Except.error (.transcriptionError "Transcription timed out") := by
  constructor
  · intro k elapsed he
    rw [pollFrom]
    have ht : ¬ maxPollTime < elapsed := by omega
    simp [hab k, ht, (hnt k).1, (hnt k).2]
  · exact pollFrom_timeout_aux ab resp hab hnt _ 0 0 le_rfl

/-- C8 witness: a backend stuck on status "queued" forever. -/
theorem strategyB_poll_terminates_witness :
    pollFrom (fun _ => false) (fun _ => ⟨"queued", none, none, none⟩) 0 0 =
      Except.error (.transcriptionError "Transcription timed out") := by
  have hq1 : ("queued" : String) ≠ "completed" := by decide
  have hq2 : ("queued" : String) ≠ "error" := by decide
  exact (strategyB_poll_terminates (fun _ => false)
    (fun _ => ⟨"queued", none, none, none⟩)
    (fun _ => rfl) (fun _ => ⟨hq1, hq2⟩)).2

/-! ### Token invariants (C5) and the confidence fallback (C10) -/

/-- C5 counterexample: the AssemblyAI word mapping copies `start`, `end`
and `confidence` verbatim, so a backend word with `end < start` produces a
token violating `endTimeMs ≥ startTimeMs` — the invariant does not hold for
every possible backend response. -/
theorem token_invariant_violated :
    ∃ t : SubtitleToken,
      mapWords [⟨"x", 400, 100, 0.9⟩] = [t] ∧ t.endTimeMs < t.startTimeMs := by
  refine ⟨wordToken 0 ⟨"x", 400, 100, 0.9⟩, rfl, ?_⟩
  norm_num [wordToken]

theorem confidenceFallback_range (resConf : Option ℚ)
    (hc : ∀ q, resConf = some q → 0 ≤ q ∧ q ≤ 1) :
    ∃ q, jsNumberOfConfidence (confidenceFallback resConf) = some q ∧
      0 ≤ q ∧ q ≤ 1 := by
  cases resConf with
  | none => exact ⟨0.5, rfl, by norm_num⟩
  | some q =>
    by_cases hq : q = 0
    · refine ⟨0.5, ?_, by norm_num⟩
      simp [confidenceFallback, hq, jsNumberOfConfidence]
    · refine ⟨q, ?_, hc q rfl⟩
      simp [confidenceFallback, hq, jsNumberOfConfidence]

theorem scoreOf_range (propConf : Option String) (resConf : Option ℚ)
    (hp : ∀ s, propConf = some s → s ≠ "" →
      ∃ q, jsStringToNumber s = some q ∧ 0 ≤ q ∧ q ≤ 1)
    (hc : ∀ q, resConf = some q → 0 ≤ q ∧ q ≤ 1) :
    ∃ q, scoreOf propConf resConf = some q ∧ 0 ≤ q ∧ q ≤ 1 := by
  cases propConf with
  | none => exact confidenceFallback_range resConf hc
  | some s =>
    by_cases hs : s = ""
    · simp only [scoreOf, confidenceChain, if_pos hs]
      exact confidenceFallback_range resConf hc
    · simp only [scoreOf, confidenceChain, if_neg hs]
      exact hp s rfl hs

theorem mapWordsFrom_inv (ws : List AaiWord)
    (h : ∀ w ∈ ws, w.start ≤ w.stop ∧ 0 ≤ w.confidence ∧ w.confidence ≤ 1) :
    ∀ k, ∀ t ∈ mapWordsFrom k ws, tokenInv t := by
  induction ws with
  | nil => intro k t ht; simp [mapWordsFrom] at ht
  | cons w ws ih =>
    intro k t ht
    rcases List.mem_cons.mp ht with rfl | ht
    · obtain ⟨h1, h2, h3⟩ := h w (List.mem_cons_self w ws)
      exact ⟨h1, w.confidence, rfl, h2, h3⟩
    · exact ih (fun x hx => h x (List.mem_cons_of_mem _ hx)) (k + 1) t ht

theorem handleRecognized_inv (results : List SubtitleToken) (e : RecoEvent)
    (hres : ∀ t ∈ results, tokenInv t) (hd : 0 ≤ e.duration)
    (hp : ∀ s, e.propConfidence = some s → s ≠ "" →
      ∃ q, jsStringToNumber s = some q ∧ 0 ≤ q ∧ q ≤ 1)
    (hc : ∀ q, e.resConfidence = some q → 0 ≤ q ∧ q ≤ 1) :
    ∀ t ∈ handleRecognized results e, tokenInv t := by
  intro t ht
  unfold handleRecognized at ht
  by_cases hr : e.reason = .recognizedSpeech
  · rw [if_pos hr] at ht
    rcases List.mem_append.mp ht with ht | ht
    · exact hres t ht
    · obtain rfl := List.mem_singleton.mp ht
      refine ⟨?_, scoreOf_range _ _ hp hc⟩
      show e.offset / 10000 ≤ (e.offset + e.duration) / 10000
      have hle : e.offset ≤ e.offset + e.duration := by linarith
      exact (div_le_div_iff_of_pos_right (by norm_num : (0 : ℚ) < 10000)).mpr hle
  · rw [if_neg hr] at ht
    exact hres t ht

/-- C5 (amended): tokens returned by either strategy satisfy
`endTimeMs ≥ startTimeMs` and `score ∈ [0,1]` **provided** the backend's
reported values do: Strategy B words must have `start ≤ end` and
`confidence ∈ [0,1]`, Strategy A events a non-negative duration and any
supplied confidence value in `[0,1]` (falsy confidences get the in-range
fallback 0.5).  The mappings themselves apply no clamping, so this
precondition cannot be dropped. -/
theorem tokens_inv_given_backend_ranges :
    (∀ ws : List AaiWord,
      (∀ w ∈ ws, w.start ≤ w.stop ∧ 0 ≤ w.confidence ∧ w.confidence ≤ 1) →
      ∀ t ∈ mapWords ws, tokenInv t) ∧
    (∀ (results : List SubtitleToken) (e : RecoEvent),
      (∀ t ∈ results, tokenInv t) → 0 ≤ e.duration →
      (∀ s, e.propConfidence = some s → s ≠ "" →
        ∃ q, jsStringToNumber s = some q ∧ 0 ≤ q ∧ q ≤ 1) →
      (∀ q, e.resConfidence = some q → 0 ≤ q ∧ q ≤ 1) →
      ∀ t ∈ handleRecognized results e, tokenInv t) :=
  ⟨fun ws h => mapWordsFrom_inv ws h 0,
   fun results e h1 h2 h3 h4 => handleRecognized_inv results e h1 h2 h3 h4⟩

/-- C5 witness: the invariant holds for the token of a concrete in-range
word. -/
theorem tokens_inv_witness :
    tokenInv (wordToken 0 ⟨"hi", 100, 400, 0.9⟩) := by
  have h := tokens_inv_given_backend_ranges.1 [⟨"hi", 100, 400, 0.9⟩]
    (by intro w hw; rw [List.mem_singleton.mp hw]; norm_num)
  exact h (wordToken 0 ⟨"hi", 100, 400, 0.9⟩) (by simp [mapWords, mapWordsFrom])

/-- C10 counterexample: the property channel delivers confidence as a
string; the non-empty string `"0"` is truthy, so it bypasses the `|| 0.5`
fallback and `Number("0") = 0` becomes the score — the continuous strategy
can emit a token with score 0. -/
theorem strategyA_score_zero_token :
    (handleRecognized []
      ⟨.recognizedSpeech, "x", 0, 100, some "0", none⟩).map SubtitleToken.score =
      [some 0] := by
  decide

/-- C10 (amended): in strategy A continuous recognition, whenever the
property-channel confidence is absent or the empty string and the numeric
confidence is absent or `0` — every falsy combination expressible in the
SDK's string/number channels — the emitted token's score is the fallback
constant 0.5.  (A reported property string `"0"` is truthy, however, so a
token score of 0 remains possible.) -/
theorem strategyA_falsy_confidence_fallback (results : List SubtitleToken)
    (e : RecoEvent) (hr : e.reason = .recognizedSpeech)
    (hp : e.propConfidence = none ∨ e.propConfidence = some "")
    (hc : e.resConfidence = none ∨ e.resConfidence = some 0) :
    handleRecognized results e =
      results ++ [{ id := results.length, value := e.text,
                    startTimeMs := e.offset / 10000,
                    endTimeMs := (e.offset + e.duration) / 10000,
                    score := some 0.5 }] := by
  unfold handleRecognized
  rw [if_pos hr]
  have hscore : scoreOf e.propConfidence e.resConfidence = some 0.5 := by
    rcases hp with hp | hp <;> rcases hc with hc | hc <;>
      simp [scoreOf, confidenceChain, confidenceFallback, jsNumberOfConfidence,
        hp, hc]
  rw [hscore]

/-- C10 witness: a recognized event with both confidence channels absent. -/
theorem strategyA_falsy_confidence_fallback_witness :
    handleRecognized [] ⟨.recognizedSpeech, "t", 0, 50, none, none⟩ =
      [{ id := 0, value := "t", startTimeMs := 0 / 10000,
         endTimeMs := (0 + 50) / 10000, score := some 0.5 }] := by
  have h := strategyA_falsy_confidence_fallback []
    ⟨.recognizedSpeech, "t", 0, 50, none, none⟩ rfl (Or.inl rfl) (Or.inl rfl)
  simpa using h

/-! ### The AssemblyAI variant's validator (`src/unnamed/part_002` lines 628–631)

That file's `isValidYouTubeUrl` tests a different regular expression:

`/^(https?:\/\/)?(www\.)?(youtube\.com\/(?:[^\/\n\s]+\/\S+\/|(?:v|e(?:mbed)?)\/|\S*?[?&]v=)|youtu\.be\/)([a-zA-Z0-9_-]{11})$/`

— scheme optional, several `youtube.com` path shapes, and the video id must
be followed by the end of the string.  Regex matching is existential in the
split points (laziness only affects captures, not matchability), so the
scanners below try every split. -/

/-- The JS `\s` class (WhiteSpace ∪ LineTerminator). -/
def jsWhitespace (c : Char) : Bool :=
  c == ' ' || c == '\t' || c == '\n' || c == '\x0b' || c == '\x0c' || c == '\r' ||
  c == '\u00a0' || c == '\u1680' || ('\u2000' ≤ c && c ≤ '\u200a') ||
  c == '\u2028' || c == '\u2029' || c == '\u202f' || c == '\u205f' ||
  c == '\u3000' || c == '\ufeff'

/-- The class `[^\/\n\s]`. -/
def notSlashNlWs (c : Char) : Bool :=
  !(c == '/' || c == '\n' || jsWhitespace c)

/-- The final `([a-zA-Z0-9_-]{11})$`: exactly 11 id characters, then end. -/
def tail11End (l : List Char) : Bool :=
  match takeIdCount 11 l with
  | some [] => true
  | _ => false

/-- After ≥ 1 `\S` characters: continue `\S`, or close `\S+\/` with a `/`
and finish with the id tail. -/
def auxSPlus : List Char → Bool
  | [] => false
  | c :: cs => (c == '/' && tail11End cs) || (!jsWhitespace c && auxSPlus cs)

/-- `\S+\/` followed by the id tail. -/
def scanSPlus : List Char → Bool
  | [] => false
  | c :: cs => !jsWhitespace c && auxSPlus cs

/-- After ≥ 1 `[^\/\n\s]` characters: continue the class, or close with `/`
and hand over to `\S+\/`. -/
def auxSeg : List Char → Bool
  | [] => false
  | c :: cs => (c == '/' && scanSPlus cs) || (notSlashNlWs c && auxSeg cs)

/-- `[^\/\n\s]+\/\S+\/` followed by the id tail. -/
def scanSeg : List Char → Bool
  | [] => false
  | c :: cs => notSlashNlWs c && auxSeg cs

/-- `\S*?[?&]v=` followed by the id tail: at every position, either match
`[?&]v=` here or consume one `\S` character. -/
def scanQueryV : List Char → Bool
  | [] => false
  | c :: cs =>
    ((c == '?' || c == '&') &&
      (match dropPrefixCh "v=".data cs with
       | some r => tail11End r
       | none => false))
    || (!jsWhitespace c && scanQueryV cs)

/-- `(youtube\.com\/(?:…)|youtu\.be\/)([a-zA-Z0-9_-]{11})$`. -/
def hostTailAai (l : List Char) : Bool :=
  (match dropPrefixCh "youtube.com/".data l with
   | some r =>
     scanSeg r
     || (match dropPrefixCh "v/".data r with
         | some t => tail11End t
         | none => false)
     || (match dropPrefixCh "e/".data r with
         | some t => tail11End t
         | none => false)
     || (match dropPrefixCh "embed/".data r with
         | some t => tail11End t
         | none => false)
     || scanQueryV r
   | none => false)
  || (match dropPrefixCh "youtu.be/".data l with
      | some r => tail11End r
      | none => false)

/-- `(www\.)?(…)`. -/
def wwwTailAai (l : List Char) : Bool :=
  (match dropPrefixCh "www.".data l with
   | some r => hostTailAai r
   | none => false)
  || hostTailAai l

/-- `isValidYouTubeUrl` of `src/unnamed/part_002` lines 628–631: the
anchored test of the regex above, with the optional `(https?:\/\/)?`
unfolded into its three cases. -/
def isValidYouTubeUrlAai (s : String) : Bool :=
  (match dropPrefixCh "https://".data s.data with
   | some r => wwwTailAai r
   | none => false)
  || (match dropPrefixCh "http://".data s.data with
      | some r => wwwTailAai r
      | none => false)
  || wwwTailAai s.data

/-- C1 counterexample: the claim's second cited validator — the AssemblyAI
variant's `isValidYouTubeUrl` (`src/unnamed/part_002` lines 628–631) — does
not decide the claimed grammar: it rejects
`https://www.youtube.com/watch?v=dQw4w9WgXcQ&t=30s`, which matches the
grammar, and accepts the scheme-less `youtube.com/watch?v=dQw4w9WgXcQ`,
which does not. -/
theorem aaiValidator_diverges_from_grammar :
    specUrlGrammar "https://www.youtube.com/watch?v=dQw4w9WgXcQ&t=30s" ∧
    isValidYouTubeUrlAai "https://www.youtube.com/watch?v=dQw4w9WgXcQ&t=30s" = false ∧
    isValidYouTubeUrlAai "youtube.com/watch?v=dQw4w9WgXcQ" = true ∧
    ¬ specUrlGrammar "youtube.com/watch?v=dQw4w9WgXcQ" := by
  refine ⟨?_, by decide, by decide, ?_⟩
  · exact ⟨"https://", "www.", "youtube.com/watch?v=", "dQw4w9WgXcQ".data,
      "&t=30s".data, Or.inr rfl, Or.inl rfl, Or.inl rfl,
      by decide, by decide, by decide, by decide⟩
  · intro hs
    have h := (isValidYouTubeUrl_iff_grammar "youtube.com/watch?v=dQw4w9WgXcQ").mpr hs
    exact absurd h (by decide)
